import Mathlib

/-!
# Verification of the ag-botkit core against its specification

Shallow embedding of the risk engine (`src/risk`), the execution gateway and
OMS (`src/exec`), and the strategy/backtest layer (`src/strategies`).
`f64` values are modelled as rationals (`ℚ`); machine floating point
rounding is outside the model, so arithmetic laws are proved exactly.
Timestamps (`created_at`, `updated_at`, fill timestamps) are omitted: they
are wall-clock reads (`Utc::now()`) and no verified property depends on
them.
-/

namespace Risk

/-- Context information for risk evaluation (src/risk/src/lib.rs, `RiskContext`). -/
structure RiskContext where
  market_id : String
  current_position : ℚ
  proposed_size : ℚ
  inventory_value_usd : ℚ
deriving Repr

/-- Result of risk evaluation (src/risk/src/lib.rs, `RiskDecision`). -/
structure RiskDecision where
  allowed : Bool
  violated_policies : List String
deriving Repr, DecidableEq

/-- `RiskDecision::allow` (src/risk/src/lib.rs). -/
def RiskDecision.allow : RiskDecision :=
  { allowed := true, violated_policies := [] }

/-- `RiskDecision::reject` (src/risk/src/lib.rs). -/
def RiskDecision.reject (violated_policies : List String) : RiskDecision :=
  { allowed := false, violated_policies := violated_policies }

/-- Individual policy rule types (src/risk/src/policy.rs, `PolicyRule`). -/
inductive PolicyRule where
  | positionLimit (market_id : Option String) (max_size : ℚ)
  | inventoryLimit (max_value_usd : ℚ)
  | killSwitch (enabled : Bool)
deriving Repr, DecidableEq

/-- Complete risk policy configuration (src/risk/src/policy.rs, `RiskPolicyConfig`). -/
structure RiskPolicyConfig where
  policies : List PolicyRule
deriving Repr, DecidableEq

/-- `PolicyRule::applies_to_market` (src/risk/src/policy.rs lines 66-76). -/
def PolicyRule.appliesToMarket : PolicyRule → String → Bool
  | .positionLimit (some policy_market_id) _, market_id => policy_market_id == market_id
  | .positionLimit none _, _ => true
  | .inventoryLimit _, _ => true
  | .killSwitch _, _ => true

/-- Renders a rational with two decimal places, mirroring Rust `{:.2}`
formatting of the `f64` values appearing in violation messages. -/
def fmt2 (q : ℚ) : String :=
  let n : ℤ := round (q * 100)
  let sign := if n < 0 then "-" else ""
  let a := n.natAbs
  let fp := a % 100
  sign ++ toString (a / 100) ++ "." ++ (if fp < 10 then "0" ++ toString fp else toString fp)

/-- `RiskEngine::evaluate_policy` (src/risk/src/engine.rs lines 148-183):
returns `some violation_message` if the policy is violated, `none` otherwise. -/
def evaluatePolicy (policy : PolicyRule) (ctx : RiskContext) : Option String :=
  match policy with
  | .positionLimit market_id max_size =>
    let new_position := ctx.current_position + ctx.proposed_size
    if |new_position| > max_size then
      let market_str :=
        match market_id with
        | some m => " (market: " ++ m ++ ")"
        | none => ""
      some ("PositionLimit" ++ market_str ++ ": new position " ++ fmt2 |new_position|
        ++ " exceeds max " ++ fmt2 max_size)
    else
      none
  | .inventoryLimit max_value_usd =>
    if ctx.inventory_value_usd > max_value_usd then
      some ("InventoryLimit: inventory " ++ fmt2 ctx.inventory_value_usd
        ++ " USD exceeds max " ++ fmt2 max_value_usd ++ " USD")
    else
      none
  | .killSwitch enabled =>
    if enabled then some "KillSwitch: enabled in policy" else none

/-- Risk evaluation engine (src/risk/src/engine.rs, `RiskEngine`); the
`RwLock<bool>` kill-switch cell is modelled as a plain boolean field. -/
structure RiskEngine where
  config : RiskPolicyConfig
  kill_switch_active : Bool
deriving Repr

/-- `RiskEngine::new` (src/risk/src/engine.rs lines 21-26). -/
def RiskEngine.new (config : RiskPolicyConfig) : RiskEngine :=
  { config := config, kill_switch_active := false }

/-- `RiskEngine::evaluate` (src/risk/src/engine.rs lines 100-128). -/
def RiskEngine.evaluate (e : RiskEngine) (ctx : RiskContext) : RiskDecision :=
  if e.kill_switch_active then
    RiskDecision.reject ["KillSwitch (active)"]
  else
    let violated_policies := e.config.policies.filterMap fun policy =>
      if policy.appliesToMarket ctx.market_id then evaluatePolicy policy ctx else none
    if violated_policies.isEmpty then
      RiskDecision.allow
    else
      RiskDecision.reject violated_policies

/-- `RiskEngine::trigger_kill_switch` (src/risk/src/engine.rs lines 131-133). -/
def RiskEngine.triggerKillSwitch (e : RiskEngine) : RiskEngine :=
  { e with kill_switch_active := true }

/-- `RiskEngine::reset_kill_switch` (src/risk/src/engine.rs lines 136-138). -/
def RiskEngine.resetKillSwitch (e : RiskEngine) : RiskEngine :=
  { e with kill_switch_active := false }

/-- `RiskEngine::is_kill_switch_active` (src/risk/src/engine.rs lines 141-143). -/
def RiskEngine.isKillSwitchActive (e : RiskEngine) : Bool :=
  e.kill_switch_active

end Risk

namespace Exec

/-- Order side (src/exec/src/order.rs, `Side`). -/
inductive Side where
  | buy
  | sell
deriving Repr, DecidableEq

/-- Order type (src/exec/src/order.rs, `OrderType`). -/
inductive OrderType where
  | limit
  | market
  | postOnly
deriving Repr, DecidableEq

/-- Time in force policy (src/exec/src/order.rs, `TimeInForce`). -/
inductive TimeInForce where
  | gtc
  | ioc
  | fok
deriving Repr, DecidableEq

/-- Order status (src/exec/src/order.rs, `OrderStatus`). -/
inductive OrderStatus where
  | pending
  | submitting
  | working
  | partiallyFilled
  | filled
  | cancelling
  | cancelled
  | rejected
  | expired
deriving Repr, DecidableEq

/-- `Display for OrderStatus` (src/exec/src/order.rs lines 171-185). -/
def OrderStatus.toDisplay : OrderStatus → String
  | .pending => "PENDING"
  | .submitting => "SUBMITTING"
  | .working => "WORKING"
  | .partiallyFilled => "PARTIALLY_FILLED"
  | .filled => "FILLED"
  | .cancelling => "CANCELLING"
  | .cancelled => "CANCELLED"
  | .rejected => "REJECTED"
  | .expired => "EXPIRED"

/-- Unified order representation (src/exec/src/order.rs, `Order`).
`OrderId` (a UUID) is modelled as `ℕ`; the two timestamp fields are
omitted (wall clock). -/
structure Order where
  id : ℕ
  venue : String
  market : String
  side : Side
  order_type : OrderType
  price : Option ℚ
  size : ℚ
  time_in_force : TimeInForce
  client_order_id : String
  status : OrderStatus
  filled_size : ℚ
  avg_fill_price : Option ℚ
deriving Repr, DecidableEq

/-- `f64::EPSILON` = 2⁻⁵², the fill-completion tolerance used by
`Order::record_fill`. -/
def epsilon : ℚ := 1 / 2 ^ 52

/-- `Order::is_terminal` (src/exec/src/order.rs lines 266-271). -/
def Order.isTerminal (o : Order) : Bool :=
  match o.status with
  | .filled | .cancelled | .rejected | .expired => true
  | _ => false

/-- `Order::is_active` (src/exec/src/order.rs lines 274-279). -/
def Order.isActive (o : Order) : Bool :=
  match o.status with
  | .working | .partiallyFilled => true
  | _ => false

/-- `Order::update_status` (src/exec/src/order.rs lines 282-285): sets the
status unconditionally (and bumps `updated_at`, omitted here). -/
def Order.updateStatus (o : Order) (status : OrderStatus) : Order :=
  { o with status := status }

/-- `Order::record_fill` (src/exec/src/order.rs lines 288-307). Division is
rational; the Rust source divides `f64`s, so the two differ only when the
cumulative filled size is zero (where Rust would produce a non-finite
value), a case excluded by the fill-accounting theorems below. -/
def Order.recordFill (o : Order) (fill_size fill_price : ℚ) : Order :=
  let filled_size := o.filled_size + fill_size
  let avg_fill_price :=
    match o.avg_fill_price with
    | some avg_price =>
      some ((avg_price * (filled_size - fill_size) + fill_price * fill_size) / filled_size)
    | none => some fill_price
  let status : OrderStatus :=
    if |filled_size - o.size| < epsilon then .filled else .partiallyFilled
  { o with filled_size := filled_size, avg_fill_price := avg_fill_price, status := status }

/-- `Order::remaining_size` (src/exec/src/order.rs lines 310-312). -/
def Order.remainingSize (o : Order) : ℚ :=
  o.size - o.filled_size

/-- Fill notification (src/exec/src/order.rs, `Fill`); timestamp omitted. -/
structure Fill where
  fill_id : String
  order_id : ℕ
  venue_order_id : Option String
  price : ℚ
  size : ℚ
  fee : ℚ
  fee_currency : String
deriving Repr, DecidableEq

/-- Order acknowledgement from venue (src/exec/src/order.rs, `OrderAck`);
timestamp omitted. -/
structure OrderAck where
  order_id : ℕ
  venue_order_id : Option String
  status : OrderStatus
  message : Option String
deriving Repr, DecidableEq

/-- Cancel acknowledgement from venue (src/exec/src/order.rs, `CancelAck`);
timestamp omitted. -/
structure CancelAck where
  order_id : ℕ
  venue_order_id : Option String
  success : Bool
  message : Option String
deriving Repr, DecidableEq

/-- The `ExecError` variants reachable from the embedded operations
(src/exec/src/error.rs); transport-level variants are omitted along with
the HTTP code they annotate. -/
inductive ExecError where
  | validationError (msg : String)
  | riskRejected (policies : List String)
  | orderNotFound (order_id : ℕ)
  | venueNotSupported (venue : String)
  | invalidOrderState (order_id : ℕ) (current_state : String) (operation : String)
  | internalError (msg : String)
deriving Repr, DecidableEq

/-- Association-list model of `HashMap<K, V>` lookup. -/
def alistLookup {κ α : Type} [DecidableEq κ] : List (κ × α) → κ → Option α
  | [], _ => none
  | (k, v) :: rest, key => if k = key then some v else alistLookup rest key

/-- Association-list model of in-place mutation of an existing entry
(`HashMap::get_mut`): entries with other keys are untouched. -/
def alistUpdate {κ α : Type} [DecidableEq κ] : List (κ × α) → κ → (α → α) → List (κ × α)
  | [], _, _ => []
  | (k, v) :: rest, key, f =>
    if k = key then (k, f v) :: alistUpdate rest key f else (k, v) :: alistUpdate rest key f

/-- Association-list model of `HashMap::insert` (used by `track_order`):
replaces an existing entry, otherwise appends. -/
def alistInsert {κ α : Type} [DecidableEq κ] (m : List (κ × α)) (key : κ) (v : α) :
    List (κ × α) :=
  if (alistLookup m key).isSome then alistUpdate m key (fun _ => v) else m ++ [(key, v)]

/-- Order tracker (src/exec/oms/tracker.rs, `OrderTracker`): the two
`RwLock<HashMap<..>>` maps are modelled as association lists. -/
structure OrderTracker where
  orders : List (ℕ × Order)
  fills : List (ℕ × List Fill)
deriving Repr, DecidableEq

/-- `OrderTracker::new` (src/exec/oms/tracker.rs lines 19-24). -/
def OrderTracker.new : OrderTracker :=
  { orders := [], fills := [] }

/-- `OrderTracker::track_order` (src/exec/oms/tracker.rs lines 27-34). -/
def OrderTracker.trackOrder (t : OrderTracker) (order : Order) : OrderTracker :=
  { t with orders := alistInsert t.orders order.id order }

/-- `OrderTracker::get_order` (src/exec/oms/tracker.rs lines 37-46). -/
def OrderTracker.getOrder (t : OrderTracker) (order_id : ℕ) : Except ExecError Order :=
  match alistLookup t.orders order_id with
  | some o => .ok o
  | none => .error (.orderNotFound order_id)

/-- `OrderTracker::update_status` (src/exec/oms/tracker.rs lines 49-60). -/
def OrderTracker.updateStatus (t : OrderTracker) (order_id : ℕ) (status : OrderStatus) :
    Except ExecError OrderTracker :=
  match alistLookup t.orders order_id with
  | some _ => .ok { t with orders := alistUpdate t.orders order_id (·.updateStatus status) }
  | none => .error (.orderNotFound order_id)

/-- `OrderTracker::record_fill` (src/exec/oms/tracker.rs lines 63-87):
updates the order with the fill, then appends the fill to the per-order
fill list (`entry(..).or_insert_with(Vec::new).push(fill)`). -/
def OrderTracker.recordFill (t : OrderTracker) (order_id : ℕ) (fill : Fill) :
    Except ExecError OrderTracker :=
  match alistLookup t.orders order_id with
  | some _ =>
    .ok { orders := alistUpdate t.orders order_id (·.recordFill fill.size fill.price),
          fills :=
            if (alistLookup t.fills order_id).isSome then
              alistUpdate t.fills order_id (· ++ [fill])
            else
              t.fills ++ [(order_id, [fill])] }
  | none => .error (.orderNotFound order_id)

/-- `OrderTracker::get_fills` (src/exec/oms/tracker.rs lines 90-96). -/
def OrderTracker.getFills (t : OrderTracker) (order_id : ℕ) : List Fill :=
  (alistLookup t.fills order_id).getD []

/-- Total size of a list of fills. -/
def sumSizes (fs : List Fill) : ℚ :=
  (fs.map (·.size)).sum

/-- Total value (size × price) of a list of fills. -/
def sumValues (fs : List Fill) : ℚ :=
  (fs.map fun f => f.size * f.price).sum

/-- A sequence of `Order::record_fill` calls. -/
def Order.recordFills (o : Order) (fs : List Fill) : Order :=
  fs.foldl (fun acc f => acc.recordFill f.size f.price) o

/-- A sequence of `OrderTracker::record_fill` calls for one order. -/
def OrderTracker.recordFills (t : OrderTracker) (order_id : ℕ) (fs : List Fill) :
    Except ExecError OrderTracker :=
  fs.foldl (fun acc f => acc.bind fun tr => tr.recordFill order_id f) (.ok t)

/-- Concrete order used by the C3 witness (mirrors the source's
`test_order_fill_recording` scenario: size 100, two fills of 50). -/
def c3Order : Order :=
  { id := 1, venue := "polymarket", market := "0x123abc", side := .buy, order_type := .limit,
    price := some (13/25), size := 100, time_in_force := .gtc, client_order_id := "client-123",
    status := .working, filled_size := 0, avg_fill_price := none }

/-- Concrete tracker used by the C3 witness. -/
def c3Tracker : OrderTracker :=
  { orders := [(1, c3Order)], fills := [] }

/-- Concrete fills used by the C3 witness: 50 @ 0.51 then 50 @ 0.53. -/
def c3Fills : List Fill :=
  [{ fill_id := "fill-1", order_id := 1, venue_order_id := none, price := 51/100, size := 50,
     fee := 1/100, fee_currency := "USD" },
   { fill_id := "fill-2", order_id := 1, venue_order_id := none, price := 53/100, size := 50,
     fee := 1/100, fee_currency := "USD" }]

/-- A `Filled` order as tracked by the OMS; used to exhibit a transition
out of a terminal state. -/
def c4Order : Order :=
  { id := 1, venue := "polymarket", market := "0x123abc", side := .buy, order_type := .limit,
    price := some (13/25), size := 100, time_in_force := .gtc, client_order_id := "client-123",
    status := .filled, filled_size := 100, avg_fill_price := some (13/25) }

/-- Tracker holding `c4Order`. -/
def c4Tracker : OrderTracker :=
  { orders := [(1, c4Order)], fills := [] }

/-- An unfilled tracked order of size 100. -/
def c5Order : Order :=
  { id := 1, venue := "polymarket", market := "0x123abc", side := .buy, order_type := .limit,
    price := some (13/25), size := 100, time_in_force := .gtc, client_order_id := "client-123",
    status := .working, filled_size := 0, avg_fill_price := none }

/-- Tracker holding `c5Order`. -/
def c5Tracker : OrderTracker :=
  { orders := [(1, c5Order)], fills := [] }

/-- An overfill: size 150 against an order of size 100. -/
def c5Fill : Fill :=
  { fill_id := "fill-over", order_id := 1, venue_order_id := none, price := 1/2, size := 150,
    fee := 0, fee_currency := "USD" }

/-- In-bounds fills for the C5 witness: 50 then 30 against size 100. -/
def c5GoodFills : List Fill :=
  [{ fill_id := "fill-1", order_id := 1, venue_order_id := none, price := 1/2, size := 50,
     fee := 0, fee_currency := "USD" },
   { fill_id := "fill-2", order_id := 1, venue_order_id := none, price := 1/2, size := 30,
     fee := 0, fee_currency := "USD" }]

/-- Stands for Rust `{}` (`Display`) rendering of an `f64` in validator
error messages; no verified property inspects these digits. -/
def fmtF (q : ℚ) : String :=
  toString q

/-- Order validator (src/exec/src/oms/validator.rs, `OrderValidator`). -/
structure OrderValidator where
  min_size : ℚ
  max_size : ℚ
  min_price : ℚ
  max_price : ℚ
deriving Repr

/-- `OrderValidator::new` (src/exec/src/oms/validator.rs lines 23-30). -/
def OrderValidator.new : OrderValidator :=
  { min_size := 1/100, max_size := 1000000, min_price := 1/10000, max_price := 1 }

/-- `OrderValidator::validate` (src/exec/src/oms/validator.rs lines 43-119):
the source's sequence of early returns, written as nested conditionals. -/
def OrderValidator.validate (v : OrderValidator) (order : Order) : Except ExecError Unit :=
  if order.size < v.min_size then
    .error (.validationError
      ("Order size " ++ fmtF order.size ++ " below minimum " ++ fmtF v.min_size))
  else if order.size > v.max_size then
    .error (.validationError
      ("Order size " ++ fmtF order.size ++ " exceeds maximum " ++ fmtF v.max_size))
  else if order.size ≤ 0 then
    .error (.validationError "Order size must be positive")
  else
    (if order.order_type = .limit ∨ order.order_type = .postOnly then
        match order.price with
        | some price =>
          if price < v.min_price then
            .error (.validationError
              ("Price " ++ fmtF price ++ " below minimum " ++ fmtF v.min_price))
          else if price > v.max_price then
            .error (.validationError
              ("Price " ++ fmtF price ++ " exceeds maximum " ++ fmtF v.max_price))
          else if price ≤ 0 then
            .error (.validationError "Price must be positive")
          else
            .ok ()
        | none => .error (.validationError "Limit order must have a price")
      else (.ok () : Except ExecError Unit)).bind fun _ =>
      if order.order_type = .market ∧ order.price.isSome then
        .error (.validationError "Market order should not have a price")
      else if order.market = "" then
        .error (.validationError "Market ID cannot be empty")
      else if order.venue = "" then
        .error (.validationError "Venue ID cannot be empty")
      else
        .ok ()

/-- Execution engine (src/exec/src/engine.rs, `ExecutionEngine`). The
adapter registry is modelled as the set of registered venue ids; the
behavior of the `dyn VenueAdapter` object is supplied per call as a
function argument. The per-venue `RateLimiter::check` is infallible (it
awaits until a token is available, src/exec/ratelimit/limiter.rs lines
45-54), so it contributes no failure path to the model. -/
structure ExecutionEngine where
  adapters : List String
  risk_engine : Option Risk.RiskEngine
  order_tracker : OrderTracker
  validator : OrderValidator
  enable_risk_checks : Bool
  enable_validation : Bool
  positions : List (String × ℚ)

/-- The `RiskContext` built inside `ExecutionEngine::submit_order`
(src/exec/src/engine.rs lines 113-127): current position defaults to 0,
`inventory_value` is `positions.values().sum()`, `proposed_size` is the
signed order size. -/
def ExecutionEngine.submitRiskContext (e : ExecutionEngine) (order : Order) :
    Risk.RiskContext :=
  { market_id := order.market,
    current_position := (alistLookup e.positions order.market).getD 0,
    proposed_size := match order.side with | .buy => order.size | .sell => -order.size,
    inventory_value_usd := (e.positions.map (·.2)).sum }

/-- `ExecutionEngine::submit_order` (src/exec/src/engine.rs lines 99-171).
`place` is the registered venue adapter's `place_order`. The returned pair
is (engine after its in-place mutations, result). -/
def ExecutionEngine.submitOrder (e : ExecutionEngine)
    (place : Order → Except ExecError OrderAck) (order : Order) :
    ExecutionEngine × Except ExecError OrderAck :=
  match (if e.enable_validation then e.validator.validate order else .ok ()) with
  | .error err => (e, .error err)
  | .ok _ =>
    match (if e.enable_risk_checks then
        match e.risk_engine with
        | some risk_engine =>
          let decision := risk_engine.evaluate (e.submitRiskContext order)
          if decision.allowed then .ok ()
          else .error (.riskRejected decision.violated_policies)
        | none => .ok ()
      else (.ok () : Except ExecError Unit)) with
    | .error err => (e, .error err)
    | .ok _ =>
      if e.adapters.contains order.venue then
        let order₁ := order.updateStatus .submitting
        let t₁ := e.order_tracker.trackOrder order₁
        match place order₁ with
        | .error err => ({ e with order_tracker := t₁ }, .error err)
        | .ok ack =>
          match t₁.updateStatus order₁.id ack.status with
          | .ok t₂ => ({ e with order_tracker := t₂ }, .ok ack)
          | .error err => ({ e with order_tracker := t₁ }, .error err)
      else
        (e, .error (.venueNotSupported order.venue))

/-- `ExecutionEngine::cancel_order` (src/exec/src/engine.rs lines 174-216).
`cancel` is the registered venue adapter's `cancel_order`. -/
def ExecutionEngine.cancelOrder (e : ExecutionEngine)
    (cancel : ℕ → Except ExecError CancelAck) (order_id : ℕ) :
    ExecutionEngine × Except ExecError CancelAck :=
  match e.order_tracker.getOrder order_id with
  | .error err => (e, .error err)
  | .ok order =>
    if order.isTerminal then
      (e, .error (.invalidOrderState order_id order.status.toDisplay "cancel"))
    else if e.adapters.contains order.venue then
      match e.order_tracker.updateStatus order_id .cancelling with
      | .error err => (e, .error err)
      | .ok t₁ =>
        match cancel order_id with
        | .error err => ({ e with order_tracker := t₁ }, .error err)
        | .ok ack =>
          if ack.success then
            match t₁.updateStatus order_id .cancelled with
            | .ok t₂ => ({ e with order_tracker := t₂ }, .ok ack)
            | .error err => ({ e with order_tracker := t₁ }, .error err)
          else
            ({ e with order_tracker := t₁ }, .ok ack)
    else
      (e, .error (.venueNotSupported order.venue))

/-- Inventory value as the specification's glossary words define it, for
comparison with the implementation: "sum over all markets of
|position size| × mark price, in USD". The engine holds no mark prices, so
the assignment is an explicit parameter. -/
def specInventoryValue (positions : List (String × ℚ)) (mark : String → ℚ) : ℚ :=
  (positions.map fun kv => |kv.2| * mark kv.1).sum

/-- Engine with a short position of 5 on one market, risk checks enabled. -/
def c6Engine : ExecutionEngine :=
  { adapters := ["polymarket"], risk_engine := some (Risk.RiskEngine.new ⟨[]⟩),
    order_tracker := OrderTracker.new, validator := OrderValidator.new,
    enable_risk_checks := true, enable_validation := true,
    positions := [("0x123abc", -5)] }

/-- Order used to build the risk context in the C6 counterexample. -/
def c6Order : Order :=
  { id := 7, venue := "polymarket", market := "0x123abc", side := .buy, order_type := .limit,
    price := some (1/2), size := 10, time_in_force := .gtc, client_order_id := "c6",
    status := .pending, filled_size := 0, avg_fill_price := none }

/-- Risk engine whose single rule rejects everything (KillSwitch-enabled
policy rule), used by the C6 witness. -/
def c6WRisk : Risk.RiskEngine :=
  Risk.RiskEngine.new ⟨[Risk.PolicyRule.killSwitch true]⟩

/-- Engine for the C6 witness: risk checks on, validation off. -/
def c6WEngine : ExecutionEngine :=
  { adapters := ["polymarket"], risk_engine := some c6WRisk,
    order_tracker := OrderTracker.new, validator := OrderValidator.new,
    enable_risk_checks := true, enable_validation := false,
    positions := [("0x123abc", -5)] }

/-- Adapter behavior for the C6 witness (never reached: risk rejects). -/
def c6Place : Order → Except ExecError OrderAck :=
  fun _ => .error (.venueNotSupported "unreached")

/-- Tracked non-terminal order for the C7/C9 witnesses. -/
def c7Order : Order :=
  { id := 3, venue := "polymarket", market := "0x123abc", side := .buy, order_type := .limit,
    price := some (1/2), size := 10, time_in_force := .gtc, client_order_id := "c7",
    status := .working, filled_size := 0, avg_fill_price := none }

/-- Engine tracking `c7Order`, with its venue registered. -/
def c7Engine : ExecutionEngine :=
  { adapters := ["polymarket"], risk_engine := none,
    order_tracker := { orders := [(3, c7Order)], fills := [] },
    validator := OrderValidator.new, enable_risk_checks := true, enable_validation := true,
    positions := [] }

/-- A successful cancel acknowledgement. -/
def c7Ack : CancelAck :=
  { order_id := 3, venue_order_id := none, success := true, message := none }

/-- Adapter cancel behavior returning `c7Ack`. -/
def c7Cancel : ℕ → Except ExecError CancelAck :=
  fun _ => .ok c7Ack

/-- A failed cancel acknowledgement. -/
def c9Ack : CancelAck :=
  { order_id := 3, venue_order_id := none, success := false,
    message := some "order already matched" }

/-- Adapter cancel behavior returning the failed acknowledgement. -/
def c9Cancel : ℕ → Except ExecError CancelAck :=
  fun _ => .ok c9Ack

end Exec

namespace Strat

/-- Order side (src/strategies/src/types.rs, `Side`). -/
inductive Side where
  | buy
  | sell
deriving Repr, DecidableEq

/-- Order type (src/strategies/src/types.rs, `OrderType`). -/
inductive OrderType where
  | market
  | limit
  | stop
  | stopLimit
deriving Repr, DecidableEq

/-- Time in force (src/strategies/src/types.rs, `TimeInForce`). -/
inductive TimeInForce where
  | gtc
  | ioc
  | fok
  | gtd
deriving Repr, DecidableEq

/-- Order status (src/strategies/src/types.rs, `OrderStatus`). -/
inductive OrderStatus where
  | pending
  | submitted
  | acknowledged
  | partiallyFilled
  | filled
  | cancelled
  | rejected
  | expired
deriving Repr, DecidableEq

/-- Strategy-level order (src/strategies/src/types.rs, `Order`); the
creation timestamp is omitted (wall clock). -/
structure Order where
  id : Option String
  venue : String
  market : String
  side : Side
  order_type : OrderType
  price : Option ℚ
  size : ℚ
  time_in_force : TimeInForce
  client_order_id : Option String
  status : OrderStatus
deriving Repr, DecidableEq

/-- Strategy-level fill (src/strategies/src/types.rs, `Fill`); timestamp
omitted (the simulator stamps fills with `Utc::now()`). -/
structure Fill where
  order_id : String
  market : String
  price : ℚ
  size : ℚ
  side : Side
  fee : ℚ
deriving Repr, DecidableEq

/-- Market tick (src/strategies/src/types.rs, `MarketTick`); timestamp
omitted. -/
structure MarketTick where
  market : String
  bid : Option ℚ
  bid_size : Option ℚ
  ask : Option ℚ
  ask_size : Option ℚ
  last : Option ℚ
  volume_24h : Option ℚ
deriving Repr, DecidableEq

/-- `MarketTick::mid_price` (src/strategies/src/types.rs lines 240-247). -/
def MarketTick.midPrice (t : MarketTick) : ℚ :=
  match t.bid, t.ask with
  | some bid, some ask => (bid + ask) / 2
  | some bid, none => bid
  | none, some ask => ask
  | none, none => t.last.getD 0

/-- Fill simulator configuration
(src/strategies/backtest/fill_simulator.rs, `FillSimulatorConfig`). -/
structure FillSimulatorConfig where
  slippage_bps : ℚ
  fill_probability : ℚ
  taker_fee_bps : ℚ
  maker_fee_bps : ℚ
deriving Repr, DecidableEq

/-- `FillSimulatorConfig::default` (src/strategies/backtest/fill_simulator.rs
lines 22-31): slippage 5 bps, fill probability 0.8, taker fee 10 bps, maker
rebate 5 bps. -/
def FillSimulatorConfig.default : FillSimulatorConfig :=
  { slippage_bps := 5, fill_probability := 8/10, taker_fee_bps := 10, maker_fee_bps := -5 }

/-- `FillSimulator::simulate_market_order_fill`
(src/strategies/backtest/fill_simulator.rs lines 55-81). -/
def simulateMarketOrderFill (cfg : FillSimulatorConfig) (order : Order) (tick : MarketTick) :
    Option Fill :=
  let fill_price :=
    match order.side with
    | .buy => (tick.ask.getD tick.midPrice) * (1 + cfg.slippage_bps / 10000)
    | .sell => (tick.bid.getD tick.midPrice) * (1 - cfg.slippage_bps / 10000)
  let fee := order.size * fill_price * cfg.taker_fee_bps / 10000
  some { order_id := order.id.getD "", market := order.market, price := fill_price,
         size := order.size, side := order.side, fee := fee }

/-- `FillSimulator::simulate_limit_order_fill`
(src/strategies/backtest/fill_simulator.rs lines 84-133). The parameter `r`
is the value of the source's `rand::random::<f64>()` draw, made explicit
because the source reads the process-global thread RNG — the simulator
stores no random source and no seed. -/
def simulateLimitOrderFill (cfg : FillSimulatorConfig) (order : Order) (tick : MarketTick)
    (r : ℚ) : Option Fill :=
  match order.price with
  | none => none
  | some order_price =>
    let would_fill : Bool :=
      match order.side with
      | .buy => match tick.ask with | some ask => decide (order_price ≥ ask) | none => false
      | .sell => match tick.bid with | some bid => decide (order_price ≤ bid) | none => false
    if would_fill = false ∧ r > cfg.fill_probability then
      none
    else
      let is_maker := !would_fill
      let fee_bps := if is_maker then cfg.maker_fee_bps else cfg.taker_fee_bps
      let fill_price := order_price
      let fee := order.size * fill_price * fee_bps / 10000
      some { order_id := order.id.getD "", market := order.market, price := fill_price,
             size := order.size, side := order.side, fee := fee }

/-- `FillSimulator::simulate_fill`
(src/strategies/backtest/fill_simulator.rs lines 46-52); `r` is threaded to
the limit branch, the only consumer of the RNG. -/
def simulateFill (cfg : FillSimulatorConfig) (order : Order) (tick : MarketTick) (r : ℚ) :
    Option Fill :=
  match order.order_type with
  | .market => simulateMarketOrderFill cfg order tick
  | .limit => simulateLimitOrderFill cfg order tick r
  | _ => none

/-- Resting buy limit: price 99 below the ask, so the fill is decided by
the Bernoulli trial on the global RNG. -/
def c8Order : Order :=
  { id := some "o1", venue := "polymarket", market := "test", side := .buy,
    order_type := .limit, price := some 99, size := 10, time_in_force := .gtc,
    client_order_id := none, status := .pending }

/-- Tick with bid 100 / ask 101. -/
def c8Tick : MarketTick :=
  { market := "test", bid := some 100, bid_size := some 100, ask := some 101,
    ask_size := some 100, last := some (201/2), volume_24h := some 1000 }

/-- Position in a market (src/strategies/src/types.rs, `Position`);
timestamp omitted. -/
structure Position where
  market : String
  size : ℚ
  entry_price : ℚ
  mark_price : ℚ
  unrealized_pnl : ℚ
  realized_pnl : ℚ
  value_usd : ℚ
deriving Repr, DecidableEq

/-- `Position::new` (src/strategies/src/types.rs lines 188-199). -/
def Position.new (market : String) : Position :=
  { market := market, size := 0, entry_price := 0, mark_price := 0, unrealized_pnl := 0,
    realized_pnl := 0, value_usd := 0 }

/-- Strategy execution context (src/strategies/src/context.rs,
`StrategyContext`): the shared handles (`exec_engine`, `risk_engine`) and
the metrics buffer are external collaborators not touched by
`update_position` and are omitted. -/
structure StrategyContext where
  strategy_id : String
  positions : List (String × Position)
  orders : List (String × Order)
  params : List (String × String)
deriving Repr, DecidableEq

/-- `StrategyContext::new` (src/strategies/src/context.rs lines 88-102). -/
def StrategyContext.new (strategy_id : String) : StrategyContext :=
  { strategy_id := strategy_id, positions := [], orders := [], params := [] }

/-- The `1e-8` flatness threshold used throughout the strategy layer. -/
def flatEps : ℚ := 1 / 100000000

/-- The mutation body of `StrategyContext::update_position`
(src/strategies/src/context.rs lines 178-203), applied to the entry for
`market_id` (or a fresh `Position::new`, matching `or_insert_with`):
volume-weighted entry price, refreshed unrealized PnL and
`value_usd = |size| · price`; the `realized_pnl` field is never written. -/
def StrategyContext.updatedPosition (ctx : StrategyContext) (market_id : String)
    (size_delta price : ℚ) : Position :=
  let position := (Exec.alistLookup ctx.positions market_id).getD (Position.new market_id)
  let old_size := position.size
  let new_size := old_size + size_delta
  let entry_price :=
    if |new_size| > flatEps then
      (old_size * position.entry_price + size_delta * price) / new_size
    else 0
  let unrealized_pnl := if |new_size| > flatEps then new_size * (price - entry_price) else 0
  { position with
    size := new_size, entry_price := entry_price, mark_price := price,
    unrealized_pnl := unrealized_pnl, value_usd := |new_size| * price }

/-- `StrategyContext::update_position` (src/strategies/src/context.rs lines
174-204): `entry(market).or_insert_with(Position::new)` followed by the
in-place mutation `updatedPosition`. -/
def StrategyContext.updatePosition (ctx : StrategyContext) (market_id : String)
    (size_delta price : ℚ) : StrategyContext :=
  let updated := ctx.updatedPosition market_id size_delta price
  { ctx with positions :=
      if (Exec.alistLookup ctx.positions market_id).isSome then
        Exec.alistUpdate ctx.positions market_id (fun _ => updated)
      else
        ctx.positions ++ [(market_id, updated)] }

/-- `StrategyContext::calculate_total_inventory_value`
(src/strategies/src/context.rs lines 238-242). -/
def StrategyContext.calculateTotalInventoryValue (ctx : StrategyContext) : ℚ :=
  (ctx.positions.map fun kv => kv.2.value_usd).sum

/-- `StrategyContext::calculate_total_unrealized_pnl`
(src/strategies/src/context.rs lines 245-249). -/
def StrategyContext.calculateTotalUnrealizedPnl (ctx : StrategyContext) : ℚ :=
  (ctx.positions.map fun kv => kv.2.unrealized_pnl).sum

/-- `StrategyContext::calculate_total_realized_pnl`
(src/strategies/src/context.rs lines 252-256). -/
def StrategyContext.calculateTotalRealizedPnl (ctx : StrategyContext) : ℚ :=
  (ctx.positions.map fun kv => kv.2.realized_pnl).sum

/-- Cross-market exposure summary (src/strategies/src/coordinator.rs,
`CrossMarketExposure`). -/
structure CrossMarketExposure where
  total_value : ℚ
  total_unrealized_pnl : ℚ
  total_realized_pnl : ℚ
  positions_by_market : List (String × ℚ)
deriving Repr, DecidableEq

/-- Multi-market coordinator (src/strategies/src/coordinator.rs,
`MultiMarketCoordinator`), restricted to its `strategy_id → context` map
(the strategy trait objects and subscription indices play no part in
exposure aggregation). -/
structure MultiMarketCoordinator where
  contexts : List (String × StrategyContext)
deriving Repr, DecidableEq

/-- `MultiMarketCoordinator::calculate_total_exposure`
(src/strategies/src/coordinator.rs lines 187-209): running sums over all
contexts, and net size per market accumulated into a map. -/
def MultiMarketCoordinator.calculateTotalExposure (c : MultiMarketCoordinator) :
    CrossMarketExposure :=
  { total_value :=
      c.contexts.foldl (fun acc kv => acc + kv.2.calculateTotalInventoryValue) 0,
    total_unrealized_pnl :=
      c.contexts.foldl (fun acc kv => acc + kv.2.calculateTotalUnrealizedPnl) 0,
    total_realized_pnl :=
      c.contexts.foldl (fun acc kv => acc + kv.2.calculateTotalRealizedPnl) 0,
    positions_by_market :=
      c.contexts.foldl (fun acc kv =>
        kv.2.positions.foldl (fun acc₂ p =>
          if (Exec.alistLookup acc₂ p.1).isSome then
            Exec.alistUpdate acc₂ p.1 (fun v => v + p.2.size)
          else
            acc₂ ++ [(p.1, 0 + p.2.size)]) acc) [] }

/-- A sequence of `update_position` calls `(market, size_delta, price)`. -/
def applyUpdates (ctx : StrategyContext) (ups : List (String × ℚ × ℚ)) : StrategyContext :=
  ups.foldl (fun acc u => acc.updatePosition u.1 u.2.1 u.2.2) ctx

end Strat

namespace Risk

/-- C1: after `trigger_kill_switch` and before `reset_kill_switch`, every
`evaluate` returns a rejection whose `violated_policies` is exactly
`["KillSwitch (active)"]`, for every context; the result is independent of
the configured policy rules (no rule is consulted); after
`reset_kill_switch` evaluation coincides with that of the engine with the
kill-switch clear, i.e. rule evaluation resumes as before. -/
theorem kill_switch_dominance (e : RiskEngine) (ctx : RiskContext) :
    (e.triggerKillSwitch).evaluate ctx = RiskDecision.reject ["KillSwitch (active)"] ∧
    ((e.triggerKillSwitch).evaluate ctx).allowed = false ∧
    (∀ cfg : RiskPolicyConfig,
      (RiskEngine.mk cfg true).evaluate ctx = RiskDecision.reject ["KillSwitch (active)"]) ∧
    (e.triggerKillSwitch).resetKillSwitch.evaluate ctx
      = ({ config := e.config, kill_switch_active := false } : RiskEngine).evaluate ctx := by
  refine ⟨rfl, rfl, fun cfg => rfl, rfl⟩

/-- C2: with the kill-switch inactive, `evaluate` allows iff no applicable
rule is violated; a `PositionLimit` with a set `market_id` applies exactly
to contexts with an equal market id, one with no `market_id` applies to
every market; an applied `PositionLimit{max_size}` is violated iff
`|current_position + proposed_size| > max_size`; the violation list is the
applicable violated rules' messages in rule order. -/
theorem evaluate_rules_spec (cfg : RiskPolicyConfig) (ctx : RiskContext) :
    (((RiskEngine.mk cfg false).evaluate ctx).allowed = true ↔
      ∀ p ∈ cfg.policies, p.appliesToMarket ctx.market_id = true → evaluatePolicy p ctx = none) ∧
    (∀ (mid : String) (ms : ℚ),
      (PolicyRule.positionLimit (some mid) ms).appliesToMarket ctx.market_id
        = (mid == ctx.market_id)) ∧
    (∀ ms : ℚ, (PolicyRule.positionLimit none ms).appliesToMarket ctx.market_id = true) ∧
    (∀ (mid : Option String) (ms : ℚ),
      (evaluatePolicy (PolicyRule.positionLimit mid ms) ctx).isSome = true ↔
        |ctx.current_position + ctx.proposed_size| > ms) ∧
    ((RiskEngine.mk cfg false).evaluate ctx).violated_policies
      = cfg.policies.filterMap (fun p =>
          if p.appliesToMarket ctx.market_id then evaluatePolicy p ctx else none) := by
  refine ⟨?_, fun mid ms => rfl, fun ms => rfl, ?_, ?_⟩
  · unfold RiskEngine.evaluate
    simp only [show (RiskEngine.mk cfg false).kill_switch_active = false from rfl,
      Bool.false_eq_true, if_false]
    constructor
    · intro h p hp happ
      by_cases hempty : (cfg.policies.filterMap fun policy =>
          if policy.appliesToMarket ctx.market_id then evaluatePolicy policy ctx else none).isEmpty
      · rw [List.isEmpty_iff, List.filterMap_eq_nil_iff] at hempty
        have := hempty p hp
        rw [happ] at this
        simpa using this
      · simp [hempty, RiskDecision.reject] at h
    · intro h
      have hempty : (cfg.policies.filterMap fun policy =>
          if policy.appliesToMarket ctx.market_id then evaluatePolicy policy ctx else none) = [] := by
        rw [List.filterMap_eq_nil_iff]
        intro p hp
        by_cases happ : p.appliesToMarket ctx.market_id
        · simp [happ, h p hp happ]
        · simp [happ]
      simp [hempty, RiskDecision.allow]
  · intro mid ms
    unfold evaluatePolicy
    by_cases hv : |ctx.current_position + ctx.proposed_size| > ms
    · simp [hv]
    · simp [hv]
  · unfold RiskEngine.evaluate
    simp only [show (RiskEngine.mk cfg false).kill_switch_active = false from rfl,
      Bool.false_eq_true, if_false]
    by_cases hempty : (cfg.policies.filterMap fun policy =>
        if policy.appliesToMarket ctx.market_id then evaluatePolicy policy ctx else none).isEmpty
    · rw [List.isEmpty_iff] at hempty
      simp [hempty, RiskDecision.allow]
    · simp [hempty, RiskDecision.reject]

end Risk

namespace Exec

lemma sumSizes_cons (f : Fill) (fs : List Fill) : sumSizes (f :: fs) = f.size + sumSizes fs := by
  simp [sumSizes]

lemma sumValues_cons (f : Fill) (fs : List Fill) :
    sumValues (f :: fs) = f.size * f.price + sumValues fs := by
  simp [sumValues]

lemma recordFill_filled_size (o : Order) (s p : ℚ) :
    (o.recordFill s p).filled_size = o.filled_size + s := rfl

lemma recordFill_size (o : Order) (s p : ℚ) : (o.recordFill s p).size = o.size := rfl

lemma recordFill_status (o : Order) (s p : ℚ) :
    (o.recordFill s p).status
      = if |o.filled_size + s - o.size| < epsilon then .filled else .partiallyFilled := rfl

lemma recordFill_avg_none (o : Order) (s p : ℚ) (h : o.avg_fill_price = none) :
    (o.recordFill s p).avg_fill_price = some p := by
  simp [Order.recordFill, h]

lemma recordFill_avg_some (o : Order) (s p a : ℚ) (h : o.avg_fill_price = some a) :
    (o.recordFill s p).avg_fill_price
      = some ((a * (o.filled_size + s - s) + p * s) / (o.filled_size + s)) := by
  simp [Order.recordFill, h]

lemma recordFills_cons (o : Order) (f : Fill) (fs : List Fill) :
    o.recordFills (f :: fs) = (o.recordFill f.size f.price).recordFills fs := rfl

lemma statusIf_congr {a b c : ℚ} (h : a = b) :
    (if |a - c| < epsilon then OrderStatus.filled else OrderStatus.partiallyFilled)
      = if |b - c| < epsilon then OrderStatus.filled else OrderStatus.partiallyFilled := by
  rw [h]

/-- Invariant of the volume-weighted average across a run of fills starting
from a partially filled state with exact average `P / F`. -/
lemma recordFills_avg_aux (fs : List Fill) :
    ∀ (o : Order) (F P : ℚ), (∀ f ∈ fs, 0 < f.size) → o.filled_size = F → 0 < F →
      o.avg_fill_price = some (P / F) →
      (o.recordFills fs).filled_size = F + sumSizes fs ∧
      (o.recordFills fs).size = o.size ∧
      (o.recordFills fs).avg_fill_price = some ((P + sumValues fs) / (F + sumSizes fs)) ∧
      (fs ≠ [] → (o.recordFills fs).status
        = if |F + sumSizes fs - o.size| < epsilon then .filled else .partiallyFilled) := by
  induction fs with
  | nil =>
    intro o F P _ hF _ havg
    refine ⟨by simp [Order.recordFills, hF, sumSizes], rfl, ?_, by simp⟩
    simp [Order.recordFills, havg, sumValues, sumSizes]
  | cons f rest ih =>
    intro o F P hpos hF hFpos havg
    have hs : 0 < f.size := hpos f (by simp)
    have h1filled : (o.recordFill f.size f.price).filled_size = F + f.size := by
      rw [recordFill_filled_size, hF]
    have h1avg : (o.recordFill f.size f.price).avg_fill_price
        = some ((P + f.size * f.price) / (F + f.size)) := by
      rw [recordFill_avg_some o f.size f.price _ havg]
      congr 1
      rw [hF]
      have hFne : F ≠ 0 := ne_of_gt hFpos
      field_simp
      ring
    obtain ⟨hA, hB, hC, hD⟩ := ih (o.recordFill f.size f.price) (F + f.size)
      (P + f.size * f.price) (fun g hg => hpos g (by simp [hg])) h1filled
      (by positivity) h1avg
    rw [recordFills_cons]
    refine ⟨?_, ?_, ?_, ?_⟩
    · rw [hA, sumSizes_cons]; ring
    · rw [hB, recordFill_size]
    · rw [hC, sumSizes_cons, sumValues_cons]; ring_nf
    · intro _
      cases rest with
      | nil =>
        simp only [Order.recordFills, List.foldl_nil, recordFill_status, hF]
        apply statusIf_congr
        simp [sumSizes]
      | cons g tail =>
        rw [hD (by simp), recordFill_size]
        apply statusIf_congr
        simp [sumSizes]
        ring

/-- Fill accounting at the `Order` level, starting from a fresh (unfilled)
order: the cumulative filled size is the sum of the fill sizes, the average
fill price is the value-weighted average, and the status is decided by the
`ε`-closeness of `filled_size` to `size`. -/
lemma recordFills_fresh (fs : List Fill) (o : Order) (hfresh : o.filled_size = 0)
    (havg : o.avg_fill_price = none) (hpos : ∀ f ∈ fs, 0 < f.size) (hne : fs ≠ []) :
    (o.recordFills fs).filled_size = sumSizes fs ∧
    (o.recordFills fs).size = o.size ∧
    (o.recordFills fs).avg_fill_price = some (sumValues fs / sumSizes fs) ∧
    (o.recordFills fs).status
      = if |sumSizes fs - o.size| < epsilon then .filled else .partiallyFilled := by
  cases fs with
  | nil => exact absurd rfl hne
  | cons f rest =>
    have hs : 0 < f.size := hpos f (by simp)
    have h1filled : (o.recordFill f.size f.price).filled_size = f.size := by
      rw [recordFill_filled_size, hfresh, zero_add]
    have h1avg : (o.recordFill f.size f.price).avg_fill_price
        = some ((f.size * f.price) / f.size) := by
      rw [recordFill_avg_none o f.size f.price havg,
        mul_div_cancel_left₀ f.price (ne_of_gt hs)]
    obtain ⟨hA, hB, hC, hD⟩ := recordFills_avg_aux rest (o.recordFill f.size f.price)
      f.size (f.size * f.price) (fun g hg => hpos g (by simp [hg])) h1filled hs h1avg
    rw [recordFills_cons]
    refine ⟨?_, ?_, ?_, ?_⟩
    · rw [hA, sumSizes_cons]
    · rw [hB, recordFill_size]
    · rw [hC, sumSizes_cons, sumValues_cons]
    · cases rest with
      | nil =>
        simp only [Order.recordFills, List.foldl_nil, recordFill_status, hfresh, zero_add]
        apply statusIf_congr
        simp [sumSizes]
      | cons g tail =>
        rw [hD (by simp), recordFill_size]
        apply statusIf_congr
        simp [sumSizes]

lemma alistLookup_update_self {κ α : Type} [DecidableEq κ] (m : List (κ × α)) (k : κ)
    (f : α → α) :
    alistLookup (alistUpdate m k f) k = (alistLookup m k).map f := by
  induction m with
  | nil => rfl
  | cons kv rest ih =>
    obtain ⟨k₁, v₁⟩ := kv
    by_cases h : k₁ = k
    · subst h
      simp [alistUpdate, alistLookup]
    · simp [alistUpdate, alistLookup, h, ih]

lemma alistLookup_append_of_none {κ α : Type} [DecidableEq κ] (m l : List (κ × α)) (k : κ)
    (h : alistLookup m k = none) : alistLookup (m ++ l) k = alistLookup l k := by
  induction m with
  | nil => rfl
  | cons kv rest ih =>
    obtain ⟨k₁, v₁⟩ := kv
    by_cases hk : k₁ = k
    · simp [alistLookup, hk] at h
    · simp only [alistLookup, hk, if_false, List.cons_append] at h ⊢
      simpa [alistLookup, hk] using ih h

/-- One successful `OrderTracker::record_fill` step: the tracked order is
updated through `Order::record_fill` and the fill is appended to the
per-order fill list. -/
lemma trackerRecordFill_props (t : OrderTracker) (oid : ℕ) (o : Order) (fill : Fill)
    (h : alistLookup t.orders oid = some o) :
    ∃ t₁ : OrderTracker, t.recordFill oid fill = .ok t₁ ∧
      alistLookup t₁.orders oid = some (o.recordFill fill.size fill.price) ∧
      t₁.getFills oid = t.getFills oid ++ [fill] := by
  unfold OrderTracker.recordFill
  rw [h]
  refine ⟨_, rfl, ?_, ?_⟩
  · simp [alistLookup_update_self, h]
  · by_cases hf : (alistLookup t.fills oid).isSome
    · obtain ⟨l, hl⟩ := Option.isSome_iff_exists.mp hf
      simp [OrderTracker.getFills, hf, alistLookup_update_self, hl]
    · have hnone : alistLookup t.fills oid = none := Option.not_isSome_iff_eq_none.mp hf
      simp [OrderTracker.getFills, hf, alistLookup_append_of_none _ _ _ hnone, hnone,
        alistLookup]

/-- A run of successful `OrderTracker::record_fill` calls applies
`Order::record_fill` cumulatively and appends every fill, in order, to the
per-order fill list. -/
lemma trackerRecordFills_props (fs : List Fill) :
    ∀ (t : OrderTracker) (oid : ℕ) (o : Order), alistLookup t.orders oid = some o →
      ∃ t₂ : OrderTracker, t.recordFills oid fs = .ok t₂ ∧
        alistLookup t₂.orders oid = some (o.recordFills fs) ∧
        t₂.getFills oid = t.getFills oid ++ fs := by
  induction fs with
  | nil =>
    intro t oid o h
    exact ⟨t, rfl, by simpa [Order.recordFills] using h, by simp⟩
  | cons f rest ih =>
    intro t oid o h
    obtain ⟨t₁, hstep, hlook1, hfills1⟩ := trackerRecordFill_props t oid o f h
    obtain ⟨t₂, hfold, hlook2, hfills2⟩ := ih t₁ oid (o.recordFill f.size f.price) hlook1
    refine ⟨t₂, ?_, ?_, ?_⟩
    · show List.foldl _ ((Except.ok t).bind fun tr => tr.recordFill oid f) rest = _
      rw [show (Except.ok t).bind (fun tr => tr.recordFill oid f) = t.recordFill oid f from rfl,
        hstep]
      exact hfold
    · rw [hlook2, recordFills_cons]
    · rw [hfills2, hfills1]
      simp

/-- C3: for a freshly tracked order and a nonempty run of positive-size
fills recorded through `OrderTracker::record_fill`, afterwards
`filled_size = Σ sᵢ`, `avg_fill_price = (Σ sᵢ pᵢ)/(Σ sᵢ)` (exactly, in the
rational model, hence within 1 ulp of the float computation), the status is
`Filled` iff `|filled_size − size| < ε` and `PartiallyFilled` otherwise,
each fill is appended, in order, to the per-order fill list, and recording
a fill for an untracked order id returns `OrderNotFound`. -/
theorem fill_accounting (t : OrderTracker) (oid : ℕ) (o : Order) (fs : List Fill)
    (htrack : alistLookup t.orders oid = some o) (hfresh : o.filled_size = 0)
    (havg : o.avg_fill_price = none) (hpos : ∀ f ∈ fs, 0 < f.size) (hne : fs ≠ []) :
    (∃ t₂ : OrderTracker, t.recordFills oid fs = .ok t₂ ∧
      ∃ o₂ : Order, alistLookup t₂.orders oid = some o₂ ∧
        o₂.filled_size = sumSizes fs ∧
        o₂.avg_fill_price = some (sumValues fs / sumSizes fs) ∧
        o₂.status = (if |sumSizes fs - o.size| < epsilon then .filled else .partiallyFilled) ∧
        t₂.getFills oid = t.getFills oid ++ fs) ∧
    (∀ (oid₂ : ℕ) (f : Fill), alistLookup t.orders oid₂ = none →
      t.recordFill oid₂ f = .error (.orderNotFound oid₂)) := by
  constructor
  · obtain ⟨t₂, hfold, hlook, hfills⟩ := trackerRecordFills_props fs t oid o htrack
    obtain ⟨hA, hB, hC, hD⟩ := recordFills_fresh fs o hfresh havg hpos hne
    exact ⟨t₂, hfold, o.recordFills fs, hlook, hA, hC, by rw [hD], hfills⟩
  · intro oid₂ f hnone
    simp [OrderTracker.recordFill, hnone]

/-- Witness for C3 at a concrete tracker, order and fill sequence. -/
theorem fill_accounting_witness :
    (alistLookup c3Tracker.orders 1 = some c3Order ∧ c3Order.filled_size = 0 ∧
      c3Order.avg_fill_price = none ∧ (∀ f ∈ c3Fills, 0 < f.size) ∧ c3Fills ≠ []) ∧
    ((∃ t₂ : OrderTracker, c3Tracker.recordFills 1 c3Fills = .ok t₂ ∧
      ∃ o₂ : Order, alistLookup t₂.orders 1 = some o₂ ∧
        o₂.filled_size = sumSizes c3Fills ∧
        o₂.avg_fill_price = some (sumValues c3Fills / sumSizes c3Fills) ∧
        o₂.status
          = (if |sumSizes c3Fills - c3Order.size| < epsilon then .filled else .partiallyFilled) ∧
        t₂.getFills 1 = c3Tracker.getFills 1 ++ c3Fills) ∧
    (∀ (oid₂ : ℕ) (f : Fill), alistLookup c3Tracker.orders oid₂ = none →
      c3Tracker.recordFill oid₂ f = .error (.orderNotFound oid₂))) :=
  ⟨⟨rfl, rfl, rfl, by decide, by decide⟩,
    fill_accounting c3Tracker 1 c3Order c3Fills rfl rfl rfl (by decide) (by decide)⟩

/-- C4 counterexample: `OrderTracker::update_status` succeeds on an order in
the terminal status `Filled` and moves it to the non-terminal status
`Working` — terminal states are not absorbing under `update_status`. -/
theorem terminal_absorbing_counterexample :
    c4Order.isTerminal = true ∧
    c4Tracker.updateStatus 1 OrderStatus.working
      = .ok { orders := [(1, c4Order.updateStatus OrderStatus.working)], fills := [] } ∧
    (c4Order.updateStatus OrderStatus.working).status = OrderStatus.working ∧
    (c4Order.updateStatus OrderStatus.working).isTerminal = false :=
  ⟨rfl, rfl, rfl, rfl⟩

/-- C4 amended: `OrderTracker::update_status` and `Order::record_fill` set
the status unconditionally — in particular they can transition an order out
of a terminal status — so terminal states are absorbing only for the
operations that test `is_terminal` first (`ExecutionEngine::cancel_order`
and `get_status`, proved with C7). -/
theorem update_status_unconditional (t : OrderTracker) (oid : ℕ) (o : Order)
    (s : OrderStatus) (h : alistLookup t.orders oid = some o) :
    (∃ t₁ : OrderTracker, t.updateStatus oid s = .ok t₁ ∧
      alistLookup t₁.orders oid = some (o.updateStatus s) ∧ (o.updateStatus s).status = s) ∧
    (∀ fill_size fill_price : ℚ, (o.recordFill fill_size fill_price).status
      = if |o.filled_size + fill_size - o.size| < epsilon then .filled
        else .partiallyFilled) := by
  constructor
  · unfold OrderTracker.updateStatus
    rw [h]
    exact ⟨_, rfl, by simp [alistLookup_update_self, h], rfl⟩
  · intro fill_size fill_price
    exact recordFill_status o fill_size fill_price

/-- Witness for C4's amended theorem: the unconditional status write applied
to a `Filled` order. -/
theorem update_status_unconditional_witness :
    (alistLookup c4Tracker.orders 1 = some c4Order) ∧
    ((∃ t₁ : OrderTracker, c4Tracker.updateStatus 1 OrderStatus.working = .ok t₁ ∧
      alistLookup t₁.orders 1 = some (c4Order.updateStatus OrderStatus.working) ∧
      (c4Order.updateStatus OrderStatus.working).status = OrderStatus.working) ∧
    (∀ fill_size fill_price : ℚ, (c4Order.recordFill fill_size fill_price).status
      = if |c4Order.filled_size + fill_size - c4Order.size| < epsilon then .filled
        else .partiallyFilled)) :=
  ⟨rfl, update_status_unconditional c4Tracker 1 c4Order OrderStatus.working rfl⟩

lemma recordFills_filled_size (fs : List Fill) :
    ∀ o : Order, (o.recordFills fs).filled_size = o.filled_size + sumSizes fs := by
  induction fs with
  | nil => intro o; simp [Order.recordFills, sumSizes]
  | cons f rest ih =>
    intro o
    rw [recordFills_cons, ih, recordFill_filled_size, sumSizes_cons]
    ring

lemma recordFills_size (fs : List Fill) : ∀ o : Order, (o.recordFills fs).size = o.size := by
  induction fs with
  | nil => intro o; rfl
  | cons f rest ih => intro o; rw [recordFills_cons, ih, recordFill_size]

lemma sumSizes_nonneg (fs : List Fill) (h : ∀ f ∈ fs, 0 ≤ f.size) : 0 ≤ sumSizes fs := by
  induction fs with
  | nil => simp [sumSizes]
  | cons f rest ih =>
    rw [sumSizes_cons]
    have := h f (by simp)
    have := ih fun g hg => h g (by simp [hg])
    linarith

lemma sumSizes_take_le (fs : List Fill) (n : ℕ) (h : ∀ f ∈ fs, 0 ≤ f.size) :
    sumSizes (fs.take n) ≤ sumSizes fs := by
  have hsplit : sumSizes fs = sumSizes (fs.take n) + sumSizes (fs.drop n) := by
    conv_lhs => rw [← List.take_append_drop n fs]
    simp [sumSizes]
  have hdrop : 0 ≤ sumSizes (fs.drop n) :=
    sumSizes_nonneg _ fun f hf => h f (List.mem_of_mem_drop hf)
  linarith

/-- C5 counterexample: `OrderTracker::record_fill` accepts a fill larger
than the order size and drives `filled_size` to 150 > size = 100 — the
claimed invariant `filled_size ≤ size` fails for arbitrary fill sizes. -/
theorem filled_size_invariant_counterexample :
    c5Order.size = 100 ∧
    (∃ t₁ : OrderTracker, c5Tracker.recordFill 1 c5Fill = .ok t₁ ∧
      alistLookup t₁.orders 1 = some (c5Order.recordFill c5Fill.size c5Fill.price)) ∧
    (c5Order.recordFill c5Fill.size c5Fill.price).filled_size = 150 ∧
    ¬ ((c5Order.recordFill c5Fill.size c5Fill.price).filled_size
        ≤ (c5Order.recordFill c5Fill.size c5Fill.price).size) := by
  refine ⟨rfl, ?_, ?_, ?_⟩
  · obtain ⟨t₁, h1, h2, _⟩ := trackerRecordFill_props c5Tracker 1 c5Order c5Fill rfl
    exact ⟨t₁, h1, h2⟩
  · rw [recordFill_filled_size]
    norm_num [c5Order, c5Fill]
  · rw [recordFill_filled_size, recordFill_size]
    norm_num [c5Order, c5Fill]

/-- C5 amended: overfills are not guarded (as the spec itself concedes);
the invariant `0 ≤ filled_size ≤ size` does hold at every intermediate
point of a run of `OrderTracker::record_fill` calls provided every fill
size is nonnegative and the cumulative filled size never exceeds the order
size. -/
theorem filled_size_invariant_amended (t : OrderTracker) (oid : ℕ) (o : Order)
    (fs : List Fill) (n : ℕ) (h : alistLookup t.orders oid = some o)
    (h0 : 0 ≤ o.filled_size) (hpos : ∀ f ∈ fs, 0 ≤ f.size)
    (hsum : o.filled_size + sumSizes fs ≤ o.size) :
    ∃ t₂ : OrderTracker, t.recordFills oid (fs.take n) = .ok t₂ ∧
      ∃ o₂ : Order, alistLookup t₂.orders oid = some o₂ ∧
        0 ≤ o₂.filled_size ∧ o₂.filled_size ≤ o₂.size := by
  obtain ⟨t₂, hfold, hlook, _⟩ := trackerRecordFills_props (fs.take n) t oid o h
  refine ⟨t₂, hfold, o.recordFills (fs.take n), hlook, ?_, ?_⟩
  · rw [recordFills_filled_size]
    have := sumSizes_nonneg (fs.take n) fun f hf => hpos f (List.mem_of_mem_take hf)
    linarith
  · rw [recordFills_filled_size, recordFills_size]
    have := sumSizes_take_le fs n hpos
    linarith

/-- Witness for C5's amended theorem at a concrete prefix. -/
theorem filled_size_invariant_amended_witness :
    (alistLookup c5Tracker.orders 1 = some c5Order ∧ (0 : ℚ) ≤ c5Order.filled_size ∧
      (∀ f ∈ c5GoodFills, 0 ≤ f.size) ∧
      c5Order.filled_size + sumSizes c5GoodFills ≤ c5Order.size) ∧
    (∃ t₂ : OrderTracker, c5Tracker.recordFills 1 (c5GoodFills.take 1) = .ok t₂ ∧
      ∃ o₂ : Order, alistLookup t₂.orders 1 = some o₂ ∧
        0 ≤ o₂.filled_size ∧ o₂.filled_size ≤ o₂.size) :=
  ⟨⟨rfl, by decide, by decide, by norm_num [c5Order, c5GoodFills, sumSizes]⟩,
    filled_size_invariant_amended c5Tracker 1 c5Order c5GoodFills 1 rfl (by decide)
      (by decide) (by norm_num [c5Order, c5GoodFills, sumSizes])⟩

lemma trackerUpdateStatus_props (t : OrderTracker) (oid : ℕ) (o : Order) (s : OrderStatus)
    (h : alistLookup t.orders oid = some o) :
    ∃ t₁ : OrderTracker, t.updateStatus oid s = .ok t₁ ∧
      t₁.orders = alistUpdate t.orders oid (fun x => x.updateStatus s) ∧
      t₁.fills = t.fills := by
  unfold OrderTracker.updateStatus
  rw [h]
  exact ⟨_, rfl, rfl, rfl⟩

lemma trackerGetOrder_ok (t : OrderTracker) (oid : ℕ) (o : Order)
    (h : alistLookup t.orders oid = some o) : t.getOrder oid = .ok o := by
  unfold OrderTracker.getOrder
  rw [h]

/-- C6 counterexample: with the ledger holding a short position of 5, the
risk context built by `submit_order` carries `inventory_value_usd = -5`
(the signed sum of the ledger), while the spec's inventory value
Σ |position| × mark is 5 at unit mark prices (and is nonnegative for every
mark assignment), so the two differ. -/
theorem inventory_value_counterexample :
    (c6Engine.submitRiskContext c6Order).inventory_value_usd = -5 ∧
    specInventoryValue c6Engine.positions (fun _ => 1) = 5 ∧
    (c6Engine.submitRiskContext c6Order).inventory_value_usd
      ≠ specInventoryValue c6Engine.positions (fun _ => 1) := by
  refine ⟨?_, ?_, ?_⟩ <;>
    norm_num [ExecutionEngine.submitRiskContext, specInventoryValue, c6Engine]

/-- C6 amended: the risk context that `submit_order` passes to the risk
engine carries `inventory_value_usd` equal to the signed sum of the
position-ledger values (`positions.values().sum()`) — no absolute value and
no mark price — and a disallowed decision on exactly that context is what
aborts the submission with `RiskRejected`. -/
theorem inventory_value_amended (e : ExecutionEngine) (order : Order) (re : Risk.RiskEngine)
    (h : e.risk_engine = some re) (hrc : e.enable_risk_checks = true)
    (hval : e.enable_validation = false) :
    (e.submitRiskContext order).inventory_value_usd = (e.positions.map (·.2)).sum ∧
    (∀ place : Order → Except ExecError OrderAck,
      (re.evaluate (e.submitRiskContext order)).allowed = false →
      e.submitOrder place order
        = (e, .error (.riskRejected
            (re.evaluate (e.submitRiskContext order)).violated_policies))) := by
  refine ⟨rfl, ?_⟩
  intro place hd
  unfold ExecutionEngine.submitOrder
  simp [hval, hrc, h, hd]

/-- Witness for C6's amended theorem at a concrete engine and order. -/
theorem inventory_value_amended_witness :
    (c6WEngine.risk_engine = some c6WRisk ∧ c6WEngine.enable_risk_checks = true ∧
      c6WEngine.enable_validation = false ∧
      (c6WRisk.evaluate (c6WEngine.submitRiskContext c6Order)).allowed = false) ∧
    ((c6WEngine.submitRiskContext c6Order).inventory_value_usd
        = (c6WEngine.positions.map (·.2)).sum ∧
      c6WEngine.submitOrder c6Place c6Order
        = (c6WEngine, .error (.riskRejected
            (c6WRisk.evaluate (c6WEngine.submitRiskContext c6Order)).violated_policies))) :=
  ⟨⟨rfl, rfl, rfl, rfl⟩,
    ⟨(inventory_value_amended c6WEngine c6Order c6WRisk rfl rfl rfl).1,
      (inventory_value_amended c6WEngine c6Order c6WRisk rfl rfl rfl).2 c6Place rfl⟩⟩

/-- C7: for a tracked order (with its venue registered and an adapter that
acknowledges), `cancel_order` returns `InvalidOrderState` with the current
state and operation "cancel" exactly when the order is terminal, leaving
the engine unchanged in that case; otherwise it transitions the order to
`Cancelling`, calls the adapter, and on an acknowledgement with
`success = true` sets the order's status to `Cancelled`. -/
theorem cancel_order_spec (e : ExecutionEngine) (cancel : ℕ → Except ExecError CancelAck)
    (oid : ℕ) (o : Order) (ack : CancelAck)
    (h : alistLookup e.order_tracker.orders oid = some o)
    (hreg : e.adapters.contains o.venue = true) (hcancel : cancel oid = .ok ack) :
    (o.isTerminal = true →
      e.cancelOrder cancel oid
        = (e, .error (.invalidOrderState oid o.status.toDisplay "cancel"))) ∧
    ((e.cancelOrder cancel oid).2
        = .error (.invalidOrderState oid o.status.toDisplay "cancel") ↔
      o.isTerminal = true) ∧
    (o.isTerminal = false → ack.success = true →
      ∃ t₂ : OrderTracker,
        e.cancelOrder cancel oid = ({ e with order_tracker := t₂ }, .ok ack) ∧
        alistLookup t₂.orders oid
          = some ((o.updateStatus .cancelling).updateStatus .cancelled) ∧
        ((o.updateStatus .cancelling).updateStatus .cancelled).status = .cancelled) := by
  have hget : e.order_tracker.getOrder oid = .ok o := trackerGetOrder_ok _ _ _ h
  by_cases hterm : o.isTerminal
  · have hres : e.cancelOrder cancel oid
        = (e, .error (.invalidOrderState oid o.status.toDisplay "cancel")) := by
      unfold ExecutionEngine.cancelOrder
      rw [hget]
      simp [hterm]
    refine ⟨fun _ => hres, ?_, fun hterm2 _ => absurd hterm (by simp [hterm2])⟩
    rw [hres]
    simp [hterm]
  · have hterm' : o.isTerminal = false := by simpa using hterm
    obtain ⟨t₁, ht1, ht1o, _⟩ := trackerUpdateStatus_props e.order_tracker oid o .cancelling h
    have hlook1 : alistLookup t₁.orders oid = some (o.updateStatus .cancelling) := by
      rw [ht1o]
      simp [alistLookup_update_self, h]
    obtain ⟨t₂, ht2, ht2o, _⟩ :=
      trackerUpdateStatus_props t₁ oid (o.updateStatus .cancelling) .cancelled hlook1
    by_cases hsucc : ack.success
    · have hres : e.cancelOrder cancel oid = ({ e with order_tracker := t₂ }, .ok ack) := by
        unfold ExecutionEngine.cancelOrder
        rw [hget]
        simp only [hterm', Bool.false_eq_true, if_false, hreg, if_true, ht1, hcancel, hsucc,
          ht2]
      refine ⟨fun hterm2 => absurd hterm2 (by simp [hterm']), ?_, fun _ _ => ?_⟩
      · rw [hres]
        simp [hterm']
      · refine ⟨t₂, hres, ?_, rfl⟩
        rw [ht2o]
        simp [alistLookup_update_self, hlook1]
    · have hsucc' : ack.success = false := by simpa using hsucc
      have hres : e.cancelOrder cancel oid = ({ e with order_tracker := t₁ }, .ok ack) := by
        unfold ExecutionEngine.cancelOrder
        rw [hget]
        simp only [hterm', Bool.false_eq_true, if_false, hreg, if_true, ht1, hcancel, hsucc']
      refine ⟨fun hterm2 => absurd hterm2 (by simp [hterm']), ?_, fun _ hsucc2 =>
        absurd hsucc2 (by simp [hsucc'])⟩
      rw [hres]
      simp [hterm']

/-- Witness for C7 at a concrete engine, order and adapter. -/
theorem cancel_order_spec_witness :
    (alistLookup c7Engine.order_tracker.orders 3 = some c7Order ∧
      c7Engine.adapters.contains c7Order.venue = true ∧ c7Cancel 3 = .ok c7Ack) ∧
    ((c7Order.isTerminal = true →
      c7Engine.cancelOrder c7Cancel 3
        = (c7Engine, .error (.invalidOrderState 3 c7Order.status.toDisplay "cancel"))) ∧
    ((c7Engine.cancelOrder c7Cancel 3).2
        = .error (.invalidOrderState 3 c7Order.status.toDisplay "cancel") ↔
      c7Order.isTerminal = true) ∧
    (c7Order.isTerminal = false → c7Ack.success = true →
      ∃ t₂ : OrderTracker,
        c7Engine.cancelOrder c7Cancel 3 = ({ c7Engine with order_tracker := t₂ }, .ok c7Ack) ∧
        alistLookup t₂.orders 3
          = some ((c7Order.updateStatus .cancelling).updateStatus .cancelled) ∧
        ((c7Order.updateStatus .cancelling).updateStatus .cancelled).status = .cancelled)) :=
  ⟨⟨rfl, rfl, rfl⟩, cancel_order_spec c7Engine c7Cancel 3 c7Order c7Ack rfl rfl rfl⟩

/-- C9: when the adapter's cancel acknowledgement reports
`success = false`, `cancel_order` returns `Ok` carrying that
acknowledgement, and the tracked order is left in `Cancelling` — the
failure is not surfaced as an error and the prior status is not
restored. -/
theorem cancel_failure_not_surfaced (e : ExecutionEngine)
    (cancel : ℕ → Except ExecError CancelAck) (oid : ℕ) (o : Order) (ack : CancelAck)
    (h : alistLookup e.order_tracker.orders oid = some o) (hterm : o.isTerminal = false)
    (hreg : e.adapters.contains o.venue = true) (hcancel : cancel oid = .ok ack)
    (hfail : ack.success = false) :
    ∃ t₁ : OrderTracker,
      e.cancelOrder cancel oid = ({ e with order_tracker := t₁ }, .ok ack) ∧
      alistLookup t₁.orders oid = some (o.updateStatus .cancelling) ∧
      (o.updateStatus .cancelling).status = .cancelling := by
  have hget : e.order_tracker.getOrder oid = .ok o := trackerGetOrder_ok _ _ _ h
  obtain ⟨t₁, ht1, ht1o, _⟩ := trackerUpdateStatus_props e.order_tracker oid o .cancelling h
  refine ⟨t₁, ?_, ?_, rfl⟩
  · unfold ExecutionEngine.cancelOrder
    rw [hget]
    simp only [hterm, Bool.false_eq_true, if_false, hreg, if_true, ht1, hcancel, hfail]
  · rw [ht1o]
    simp [alistLookup_update_self, h]

/-- Witness for C9 at a concrete engine, order and adapter. -/
theorem cancel_failure_not_surfaced_witness :
    (alistLookup c7Engine.order_tracker.orders 3 = some c7Order ∧
      c7Order.isTerminal = false ∧ c7Engine.adapters.contains c7Order.venue = true ∧
      c9Cancel 3 = .ok c9Ack ∧ c9Ack.success = false) ∧
    (∃ t₁ : OrderTracker,
      c7Engine.cancelOrder c9Cancel 3 = ({ c7Engine with order_tracker := t₁ }, .ok c9Ack) ∧
      alistLookup t₁.orders 3 = some (c7Order.updateStatus .cancelling) ∧
      (c7Order.updateStatus .cancelling).status = .cancelling) :=
  ⟨⟨rfl, rfl, rfl, rfl, rfl⟩,
    cancel_failure_not_surfaced c7Engine c9Cancel 3 c7Order c9Ack rfl rfl rfl rfl rfl⟩

end Exec

namespace Strat

/-- C8: the fill decision for a resting limit order depends on the value of
the process-global `rand::random` draw (no seed is stored in or exposed by
the simulator): on the very same order, tick and configuration, draw 0
produces a fill and draw 1 produces none, so two replays of an identical
tick stream can produce different trade lists. -/
theorem fill_depends_on_global_rng :
    (simulateLimitOrderFill FillSimulatorConfig.default c8Order c8Tick 0).isSome = true ∧
    simulateLimitOrderFill FillSimulatorConfig.default c8Order c8Tick 1 = none ∧
    simulateFill FillSimulatorConfig.default c8Order c8Tick 0
      ≠ simulateFill FillSimulatorConfig.default c8Order c8Tick 1 := by
  refine ⟨?_, ?_, ?_⟩ <;>
    · norm_num [simulateFill, simulateLimitOrderFill, FillSimulatorConfig.default, c8Order,
        c8Tick]
      try simp

lemma alistLookup_mem {κ α : Type} [DecidableEq κ] (m : List (κ × α)) (k : κ) (v : α)
    (h : Exec.alistLookup m k = some v) : (k, v) ∈ m := by
  induction m with
  | nil => simp [Exec.alistLookup] at h
  | cons kv rest ih =>
    obtain ⟨k₁, v₁⟩ := kv
    by_cases hk : k₁ = k
    · subst hk
      simp [Exec.alistLookup] at h
      subst h
      exact List.mem_cons_self _ _
    · simp only [Exec.alistLookup, hk, if_false] at h
      exact List.mem_cons_of_mem _ (ih h)

lemma alistUpdate_forall {κ α : Type} [DecidableEq κ] {P : κ × α → Prop}
    (m : List (κ × α)) (k : κ) (f : α → α) (h : ∀ kv ∈ m, P kv)
    (hf : ∀ kv ∈ m, P (kv.1, f kv.2)) : ∀ kv ∈ Exec.alistUpdate m k f, P kv := by
  induction m with
  | nil => intro kv hkv; simp [Exec.alistUpdate] at hkv
  | cons hd rest ih =>
    obtain ⟨k₁, v₁⟩ := hd
    intro kv hkv
    by_cases hk : k₁ = k
    · rw [show Exec.alistUpdate ((k₁, v₁) :: rest) k f = (k₁, f v₁) :: Exec.alistUpdate rest k f
        from by simp [Exec.alistUpdate, hk]] at hkv
      rcases List.mem_cons.mp hkv with h1 | h1
      · subst h1
        exact hf (k₁, v₁) (by simp)
      · exact ih (fun kv2 h2 => h kv2 (by simp [h2])) (fun kv2 h2 => hf kv2 (by simp [h2]))
          kv h1
    · rw [show Exec.alistUpdate ((k₁, v₁) :: rest) k f = (k₁, v₁) :: Exec.alistUpdate rest k f
        from by simp [Exec.alistUpdate, hk]] at hkv
      rcases List.mem_cons.mp hkv with h1 | h1
      · subst h1
        exact h (k₁, v₁) (by simp)
      · exact ih (fun kv2 h2 => h kv2 (by simp [h2])) (fun kv2 h2 => hf kv2 (by simp [h2]))
          kv h1

lemma updatePosition_positions (ctx : StrategyContext) (market_id : String)
    (size_delta price : ℚ) :
    (ctx.updatePosition market_id size_delta price).positions
      = if (Exec.alistLookup ctx.positions market_id).isSome then
          Exec.alistUpdate ctx.positions market_id
            (fun _ => ctx.updatedPosition market_id size_delta price)
        else
          ctx.positions ++ [(market_id, ctx.updatedPosition market_id size_delta price)] :=
  rfl

lemma updatedPosition_realized (ctx : StrategyContext) (market_id : String)
    (size_delta price : ℚ) :
    (ctx.updatedPosition market_id size_delta price).realized_pnl
      = ((Exec.alistLookup ctx.positions market_id).getD (Position.new market_id)).realized_pnl :=
  rfl

lemma updatePosition_realized (ctx : StrategyContext) (market_id : String)
    (size_delta price : ℚ) (h : ∀ kv ∈ ctx.positions, kv.2.realized_pnl = 0) :
    ∀ kv ∈ (ctx.updatePosition market_id size_delta price).positions,
      kv.2.realized_pnl = 0 := by
  have hupd : (ctx.updatedPosition market_id size_delta price).realized_pnl = 0 := by
    rw [updatedPosition_realized]
    cases hl : Exec.alistLookup ctx.positions market_id with
    | none => simp [Position.new]
    | some v => simpa using h (market_id, v) (alistLookup_mem _ _ _ hl)
  intro kv hkv
  rw [updatePosition_positions] at hkv
  by_cases hs : (Exec.alistLookup ctx.positions market_id).isSome
  · rw [if_pos hs] at hkv
    exact alistUpdate_forall ctx.positions market_id _ h (fun kv2 _ => hupd) kv hkv
  · rw [if_neg hs] at hkv
    rcases List.mem_append.mp hkv with hm | hm
    · exact h kv hm
    · simp only [List.mem_singleton] at hm
      subst hm
      exact hupd

lemma applyUpdates_cons (ctx : StrategyContext) (u : String × ℚ × ℚ)
    (rest : List (String × ℚ × ℚ)) :
    applyUpdates ctx (u :: rest) = applyUpdates (ctx.updatePosition u.1 u.2.1 u.2.2) rest :=
  rfl

lemma applyUpdates_realized (ups : List (String × ℚ × ℚ)) :
    ∀ ctx : StrategyContext, (∀ kv ∈ ctx.positions, kv.2.realized_pnl = 0) →
      ∀ kv ∈ (applyUpdates ctx ups).positions, kv.2.realized_pnl = 0 := by
  induction ups with
  | nil => intro ctx h; simpa [applyUpdates] using h
  | cons u rest ih =>
    intro ctx h
    rw [applyUpdates_cons]
    exact ih _ (updatePosition_realized ctx u.1 u.2.1 u.2.2 h)

lemma total_realized_zero (ctx : StrategyContext)
    (h : ∀ kv ∈ ctx.positions, kv.2.realized_pnl = 0) :
    ctx.calculateTotalRealizedPnl = 0 := by
  unfold StrategyContext.calculateTotalRealizedPnl
  apply List.sum_eq_zero
  intro x hx
  obtain ⟨kv, hkv, rfl⟩ := List.mem_map.mp hx
  exact h kv hkv

lemma foldl_add_zero {β : Type} (l : List β) (g : β → ℚ) (h : ∀ b ∈ l, g b = 0) :
    ∀ a : ℚ, l.foldl (fun acc b => acc + g b) a = a := by
  induction l with
  | nil => intro a; rfl
  | cons hd tl ih =>
    intro a
    have h0 : g hd = 0 := h hd (by simp)
    simp only [List.foldl_cons, h0, add_zero]
    exact ih (fun b hb => h b (by simp [hb])) a

/-- C10: `update_position` never writes `realized_pnl`: starting from a
fresh context, after any sequence of `update_position` calls every
position's `realized_pnl` is 0, `calculate_total_realized_pnl` is 0, and
the `total_realized_pnl` component of the coordinator's cross-market
exposure over any family of such contexts is 0. -/
theorem realized_pnl_never_written (sid : String) (ups : List (String × ℚ × ℚ))
    (strategies : List (String × List (String × ℚ × ℚ))) :
    (∀ kv ∈ (applyUpdates (StrategyContext.new sid) ups).positions,
      kv.2.realized_pnl = 0) ∧
    (applyUpdates (StrategyContext.new sid) ups).calculateTotalRealizedPnl = 0 ∧
    (MultiMarketCoordinator.mk (strategies.map fun s =>
        (s.1, applyUpdates (StrategyContext.new s.1) s.2))).calculateTotalExposure.total_realized_pnl
      = 0 := by
  have hbase : ∀ sid₂ : String, ∀ kv ∈ (StrategyContext.new sid₂).positions,
      kv.2.realized_pnl = 0 := by
    intro sid₂ kv hkv
    simp [StrategyContext.new] at hkv
  have h1 := applyUpdates_realized ups (StrategyContext.new sid) (hbase sid)
  refine ⟨h1, total_realized_zero _ h1, ?_⟩
  unfold MultiMarketCoordinator.calculateTotalExposure
  simp only
  apply foldl_add_zero
  intro b hb
  obtain ⟨s, _, rfl⟩ := List.mem_map.mp hb
  exact total_realized_zero _ (applyUpdates_realized s.2 (StrategyContext.new s.1) (hbase s.1))

end Strat
